import Mathlib

/-!
Verification development for the curriculum fulfillment pipeline in
`src/app.py` (InfoSysProj).

The core of the program is four Python functions operating on parsed JSON
documents: `get_minor_courses`, `map_gened_requirements`,
`process_curriculum_json` (with its inner helpers `format_credit` and
`get_credit_info`), and the `main` analyze path.  We embed the JSON data
model as an inductive `JValue` and translate each function into an
executable Lean definition over `JValue`, with Python's dynamic-typing
failures (TypeError / KeyError / AttributeError) made explicit through the
`Except String` monad.
-/

/-- JSON values as handled by the program (parsed documents).  Numbers are
modelled as integers: every credit value in the data is integral. -/
inductive JValue where
  | null : JValue
  | bool : Bool → JValue
  | num : Int → JValue
  | str : String → JValue
  | arr : List JValue → JValue
  | obj : List (String × JValue) → JValue

mutual

/-- Decidable equality on `JValue` (Python `==` on parsed JSON values of
distinct types is `False`, and structural on equal types). -/
def JValue.decEq : (a b : JValue) → Decidable (a = b)
  | .null, .null => isTrue rfl
  | .bool a, .bool b =>
    if h : a = b then isTrue (by rw [h]) else isFalse (fun he => h (JValue.bool.inj he))
  | .num a, .num b =>
    if h : a = b then isTrue (by rw [h]) else isFalse (fun he => h (JValue.num.inj he))
  | .str a, .str b =>
    if h : a = b then isTrue (by rw [h]) else isFalse (fun he => h (JValue.str.inj he))
  | .arr a, .arr b =>
    match JValue.decEqList a b with
    | isTrue h => isTrue (by rw [h])
    | isFalse h => isFalse (fun he => h (JValue.arr.inj he))
  | .obj a, .obj b =>
    match JValue.decEqObj a b with
    | isTrue h => isTrue (by rw [h])
    | isFalse h => isFalse (fun he => h (JValue.obj.inj he))
  | .null, .bool _ => isFalse (fun h => JValue.noConfusion h)
  | .null, .num _ => isFalse (fun h => JValue.noConfusion h)
  | .null, .str _ => isFalse (fun h => JValue.noConfusion h)
  | .null, .arr _ => isFalse (fun h => JValue.noConfusion h)
  | .null, .obj _ => isFalse (fun h => JValue.noConfusion h)
  | .bool _, .null => isFalse (fun h => JValue.noConfusion h)
  | .bool _, .num _ => isFalse (fun h => JValue.noConfusion h)
  | .bool _, .str _ => isFalse (fun h => JValue.noConfusion h)
  | .bool _, .arr _ => isFalse (fun h => JValue.noConfusion h)
  | .bool _, .obj _ => isFalse (fun h => JValue.noConfusion h)
  | .num _, .null => isFalse (fun h => JValue.noConfusion h)
  | .num _, .bool _ => isFalse (fun h => JValue.noConfusion h)
  | .num _, .str _ => isFalse (fun h => JValue.noConfusion h)
  | .num _, .arr _ => isFalse (fun h => JValue.noConfusion h)
  | .num _, .obj _ => isFalse (fun h => JValue.noConfusion h)
  | .str _, .null => isFalse (fun h => JValue.noConfusion h)
  | .str _, .bool _ => isFalse (fun h => JValue.noConfusion h)
  | .str _, .num _ => isFalse (fun h => JValue.noConfusion h)
  | .str _, .arr _ => isFalse (fun h => JValue.noConfusion h)
  | .str _, .obj _ => isFalse (fun h => JValue.noConfusion h)
  | .arr _, .null => isFalse (fun h => JValue.noConfusion h)
  | .arr _, .bool _ => isFalse (fun h => JValue.noConfusion h)
  | .arr _, .num _ => isFalse (fun h => JValue.noConfusion h)
  | .arr _, .str _ => isFalse (fun h => JValue.noConfusion h)
  | .arr _, .obj _ => isFalse (fun h => JValue.noConfusion h)
  | .obj _, .null => isFalse (fun h => JValue.noConfusion h)
  | .obj _, .bool _ => isFalse (fun h => JValue.noConfusion h)
  | .obj _, .num _ => isFalse (fun h => JValue.noConfusion h)
  | .obj _, .str _ => isFalse (fun h => JValue.noConfusion h)
  | .obj _, .arr _ => isFalse (fun h => JValue.noConfusion h)

/-- Decidable equality on lists of `JValue`. -/
def JValue.decEqList : (a b : List JValue) → Decidable (a = b)
  | [], [] => isTrue rfl
  | [], _ :: _ => isFalse (fun h => List.noConfusion h)
  | _ :: _, [] => isFalse (fun h => List.noConfusion h)
  | a :: as, b :: bs =>
    match JValue.decEq a b with
    | isFalse h1 => isFalse (fun he => h1 (List.cons.inj he).1)
    | isTrue h1 =>
      match JValue.decEqList as bs with
      | isTrue h2 => isTrue (by rw [h1, h2])
      | isFalse h2 => isFalse (fun he => h2 (List.cons.inj he).2)

/-- Decidable equality on object field lists. -/
def JValue.decEqObj : (a b : List (String × JValue)) → Decidable (a = b)
  | [], [] => isTrue rfl
  | [], _ :: _ => isFalse (fun h => List.noConfusion h)
  | _ :: _, [] => isFalse (fun h => List.noConfusion h)
  | (k1, v1) :: as, (k2, v2) :: bs =>
    if hk : k1 = k2 then
      match JValue.decEq v1 v2 with
      | isFalse h1 =>
        isFalse (fun he => h1 (congrArg Prod.snd (List.cons.inj he).1))
      | isTrue h1 =>
        match JValue.decEqObj as bs with
        | isTrue h2 => isTrue (by rw [hk, h1, h2])
        | isFalse h2 => isFalse (fun he => h2 (List.cons.inj he).2)
    else
      isFalse (fun he => hk (congrArg Prod.fst (List.cons.inj he).1))

end

instance : DecidableEq JValue := JValue.decEq

/-- Decidable equality for `Except` results (used to evaluate the embedded
functions at concrete inputs inside proofs). -/
def exceptDecEq {e a : Type} [DecidableEq e] [DecidableEq a] :
    (x y : Except e a) → Decidable (x = y)
  | .error u, .error v =>
    if h : u = v then isTrue (by rw [h]) else isFalse (fun he => h (Except.error.inj he))
  | .ok u, .ok v =>
    if h : u = v then isTrue (by rw [h]) else isFalse (fun he => h (Except.ok.inj he))
  | .error _, .ok _ => isFalse (fun h => Except.noConfusion h)
  | .ok _, .error _ => isFalse (fun h => Except.noConfusion h)

instance {e a : Type} [DecidableEq e] [DecidableEq a] : DecidableEq (Except e a) :=
  exceptDecEq

/-- Python truthiness of a value (`if x:`): None, False, 0, "", [] and
\x7b\x7d are falsy, everything else truthy. -/
def JValue.truthy : JValue → Bool
  | .null => false
  | .bool b => b
  | .num n => n != 0
  | .str s => !s.isEmpty
  | .arr l => !l.isEmpty
  | .obj l => !l.isEmpty

/-- Python `a or b`: `a` when truthy, else `b`. -/
def pyOr (a b : JValue) : JValue := if a.truthy then a else b

/-- Lookup of a string key in an object's field list (Python dict lookup;
JSON-parsed dicts have at most one occurrence of a key). -/
def slookup (kvs : List (String × JValue)) (k : String) : Option JValue :=
  (kvs.find? (fun p => p.1 == k)).map (fun p => p.2)

/-- `dict.get(k, default)` on an object's field list. -/
def slookupD (kvs : List (String × JValue)) (k : String) (d : JValue) : JValue :=
  (slookup kvs k).getD d

/-- Lookup in a Python dict keyed by arbitrary (hashable) values, as built
by the program for the gen-ed map and the fulfillment map. -/
def dget {β : Type} (m : List (JValue × β)) (k : JValue) : Option β :=
  (m.find? (fun p => p.1 == k)).map (fun p => p.2)

/-- Python dict assignment `m[k] = v`: overwrite in place when the key is
present, else append. -/
def dinsert {β : Type} (m : List (JValue × β)) (k : JValue) (v : β) : List (JValue × β) :=
  if m.any (fun p => p.1 == k) then
    m.map (fun p => if p.1 == k then (k, v) else p)
  else m ++ [(k, v)]

/-- Whether `pat` occurs as a contiguous run at the front of `l`. -/
def listPfx : List Char → List Char → Bool
  | [], _ => true
  | _ :: _, [] => false
  | a :: as, b :: bs => a == b && listPfx as bs

/-- Whether `need` occurs as a contiguous run anywhere in `hay`. -/
def substrAux (need : List Char) : List Char → Bool
  | [] => need.isEmpty
  | c :: rest => listPfx need (c :: rest) || substrAux need rest

/-- Python `need in hay` for strings (substring test). -/
def strContains (hay need : String) : Bool := substrAux need.toList hay.toList

/-- Python `s.lower()` (ASCII case folding, which covers every key in the
catalogs). -/
def strToLower (s : String) : String := String.mk (s.toList.map Char.toLower)

/-- Python `key in container`.  For dicts this is a key test, for lists a
membership test, for strings a substring test; other containers raise
TypeError.  Unhashable keys (lists/dicts) raise TypeError on a dict. -/
def pyIn (key : JValue) (container : JValue) : Except String Bool :=
  match container with
  | .obj kvs =>
    match key with
    | .str s => pure (kvs.any (fun p => p.1 == s))
    | .arr _ => Except.error "TypeError"
    | .obj _ => Except.error "TypeError"
    | _ => pure false
  | .arr l => pure (l.contains key)
  | .str s =>
    match key with
    | .str t => pure (strContains s t)
    | _ => Except.error "TypeError"
  | _ => Except.error "TypeError"

/-- Python subscript `v[key]` with a string key: KeyError when the key is
missing from a dict, TypeError on any non-dict. -/
def jindex (v : JValue) (key : String) : Except String JValue :=
  match v with
  | .obj kvs =>
    match slookup kvs key with
    | some x => pure x
    | none => Except.error "KeyError"
  | _ => Except.error "TypeError"

/-- Python `v.get(key, default)`: AttributeError on a non-dict. -/
def jget (v : JValue) (key : String) (d : JValue) : Except String JValue :=
  match v with
  | .obj kvs => pure (slookupD kvs key d)
  | _ => Except.error "AttributeError"

/-- Python iteration `for x in v`: lists yield elements, strings yield
one-character strings, dicts yield their keys; other values raise
TypeError. -/
def iterElems : JValue → Except String (List JValue)
  | .arr l => pure l
  | .str s => pure (s.toList.map (fun c => .str (String.singleton c)))
  | .obj kvs => pure (kvs.map (fun p => .str p.1))
  | _ => Except.error "TypeError"

/-- Translation of `re.search(r'\d+ID$', s)`: the string ends in one or
more digits immediately followed by "ID" (one digit directly before the
final "ID" suffices for the `+`). -/
def matchesIdPattern (s : String) : Bool :=
  match s.toList.reverse with
  | 'D' :: 'I' :: c :: _ => c.isDigit
  | _ => false

mutual

/-- Python `repr` of a value (commas/quotes as CPython prints them);
only the scalar cases are ever reached by the theorems below. -/
def pyRepr : JValue → String
  | .null => "None"
  | .bool true => "True"
  | .bool false => "False"
  | .num n => toString n
  | .str s => "'" ++ s ++ "'"
  | .arr l => "[" ++ pyReprList l ++ "]"
  | .obj kvs => "\x7b" ++ pyReprObj kvs ++ "\x7d"

/-- `repr` of a list's elements, comma separated. -/
def pyReprList : List JValue → String
  | [] => ""
  | [v] => pyRepr v
  | v :: rest => pyRepr v ++ ", " ++ pyReprList rest

/-- `repr` of a dict's items, comma separated. -/
def pyReprObj : List (String × JValue) → String
  | [] => ""
  | [(k, v)] => "'" ++ k ++ "': " ++ pyRepr v
  | (k, v) :: rest => "'" ++ k ++ "': " ++ pyRepr v ++ ", " ++ pyReprObj rest

end

/-- Python `str()` / f-string rendering of a value. -/
def pyStr : JValue → String
  | .str s => s
  | v => pyRepr v

/-! ## Course Extractor: `get_minor_courses` (src/app.py lines 47-63) -/

/-- Nested-option extraction inside `get_minor_courses`: for a structured
entry without a direct `Course` field, Python iterates `entry.values()` and,
for every list-valued field, collects `item['Course']` from the dict items
that carry a `Course` key (other items are skipped). -/
def nested_courses (ekvs : List (String × JValue)) : List JValue :=
  ekvs.foldl
    (fun acc p =>
      match p.2 with
      | .arr items =>
        acc ++ items.filterMap (fun it =>
          match it with
          | .obj ikvs => slookup ikvs "Course"
          | _ => none)
      | _ => acc) []

/-- One entry of a section list: a dict with a `Course` key contributes that
course; any other dict contributes its nested option courses; non-dict
entries are skipped. -/
def extract_entry (entry : JValue) : List JValue :=
  match entry with
  | .obj ekvs =>
    match slookup ekvs "Course" with
    | some c => [c]
    | none => nested_courses ekvs
  | _ => []

/-- `get_minor_courses(selected_minor, minor_data)`: walk the minor's
sections in stored order and flatten the course identifiers; an absent
minor name yields the empty list. -/
def get_minor_courses (selected_minor : String) (minor_data : JValue) :
    Except String (List JValue) := do
  let present ← pyIn (.str selected_minor) minor_data
  if present then do
    let minor_info ← jindex minor_data selected_minor
    match minor_info with
    | .obj sections =>
      sections.foldlM
        (fun acc p => do
          let entries ← iterElems p.2
          pure (acc ++ (entries.map extract_entry).flatten))
        []
    | _ => Except.error "AttributeError"
  else
    pure []

/-! ## Fulfillment Resolver: `map_gened_requirements` (src/app.py 65-115) -/

/-- The gen-ed map (lines 73-77): merge the `Required Core` and
`Flexible Core` entry lists of `gened_data['gened']` into a single dict
from `Course` value to `Area(s)` value (`.get('Area(s)', [])`), with later
entries overwriting earlier ones. -/
def build_gened_map (gened_data : JValue) :
    Except String (List (JValue × JValue)) := do
  let g ← jindex gened_data "gened"
  (["Required Core", "Flexible Core"]).foldlM
    (fun m core_type => do
      let lst ← jindex g core_type
      let items ← iterElems lst
      items.foldlM
        (fun m course_info => do
          let areas ← jget course_info "Area(s)" (.arr [])
          let c ← jindex course_info "Course"
          pure (dinsert m c areas))
        m)
    []

/-- `set([c['Course'] for c in v])` (lines 80-83): the course sets for the
major and liberal-arts lookups, kept as lists (membership-only use). -/
def build_course_set (v : JValue) : Except String (List JValue) := do
  let items ← iterElems v
  items.mapM (fun c => jindex c "Course")

/-- Lines 88-90: normalize the gen-ed map entry — a list is used as is, a
truthy non-list becomes a one-element list, a falsy non-list becomes the
empty list. -/
def normalizeAreas : JValue → List JValue
  | .arr l => l
  | v => if v.truthy then [v] else []

/-- The loop body of lines 87-113: resolve one course against the prepared
lookups.  The sequential `append` calls on the copied list are rendered as
concatenation of conditional segments, in the source's order; `course in
ID_data or re.search(r'\d+ID$', course)` keeps Python's short-circuit (the
regex is not evaluated when the key test already succeeded). -/
def resolve_course (gmap : List (JValue × JValue))
    (major_core major_elective lib_art adv_lib : List JValue)
    (ID_data : JValue) (course : JValue) : Except String (List JValue) := do
  let fulfilled_geneds := (dget gmap course).getD (.arr [])
  let current := normalizeAreas fulfilled_geneds
  let tagsMC := if major_core.contains course then [JValue.str "Major_Core"] else []
  let tagsME := if major_elective.contains course then [JValue.str "Major_Elec"] else []
  let tagsLA := if lib_art.contains course then [JValue.str "Lib Art"] else []
  let tagsAL := if adv_lib.contains course then [JValue.str "Lib Art", JValue.str "Adv Lib Art"] else []
  let idFlag ← do
    let inKeys ← pyIn course ID_data
    if inKeys then pure true
    else
      match course with
      | .str s => pure (matchesIdPattern s)
      | _ => Except.error "TypeError"
  let tagsID := if idFlag then [JValue.str "ID"] else []
  pure (current ++ tagsMC ++ tagsME ++ tagsLA ++ tagsAL ++ tagsID)

/-- The five parsed documents of the data bundle (the minor document first,
then gen-ed, major, liberal-arts and interdisciplinary catalogs). -/
structure DataBundle where
  minor_data : JValue
  gened_data : JValue
  major_data : JValue
  lib_data : JValue
  ID_data : JValue

/-- `map_gened_requirements(courses, selected_major, data_bundle)`: build
the merged gen-ed map and the four course sets (in source order: major
core, major electives, advanced liberal arts, liberal arts), then resolve
every course; one `(course, fulfilled areas)` pair per input course, in
order (the source's row dicts with keys `Courses in Minor` /
`Fulfilled Areas` are modelled as pairs). -/
def map_gened_requirements (courses : List JValue) (selected_major : String)
    (b : DataBundle) : Except String (List (JValue × List JValue)) := do
  let gmap ← build_gened_map b.gened_data
  let mjr ← jindex b.major_data selected_major
  let major_core ← build_course_set (← jindex mjr "Core")
  let major_elective ← build_course_set (← jindex mjr "Electives")
  let adv_lib ← build_course_set (← jindex b.lib_data "Adv Lib Art")
  let lib_art ← build_course_set (← jindex b.lib_data "Lib Art")
  courses.mapM (fun course => do
    let areas ← resolve_course gmap major_core major_elective lib_art adv_lib b.ID_data course
    pure (course, areas))

/-! ## Curriculum Materializer: `process_curriculum_json` (src/app.py 117-212) -/

/-- `format_credit(min_credit, max_credit)` (lines 125-126): a single
number when the two are equal, else "Min-Max". -/
def format_credit (min_credit max_credit : JValue) : String :=
  if min_credit == max_credit then pyStr max_credit
  else pyStr min_credit ++ "-" ++ pyStr max_credit

/-- The scanning loop of `get_credit_info` (lines 131-134): the first field
whose key contains "credit" case-insensitively and whose value is a dict
with both `Min` and `Max` keys (JSON object keys are always strings, so the
`isinstance(key, str)` guard is always satisfied). -/
def credit_scan : List (String × JValue) → Option JValue
  | [] => none
  | (k, v) :: rest =>
    if strContains (strToLower k) "credit" then
      match v with
      | .obj vkvs =>
        if vkvs.any (fun p => p.1 == "Min") && vkvs.any (fun p => p.1 == "Max") then some v
        else credit_scan rest
      | _ => credit_scan rest
    else credit_scan rest

/-- `get_credit_info(data_item)` (lines 128-135): return
`data_item.get('Credit') or data_item.get('credit')` whenever that value is
truthy (no shape check), else the first credit-like scanned field, else the
default Min 3 / Max 3 pair.  On a non-dict argument `.get` raises
AttributeError. -/
def get_credit_info (data_item : JValue) : Except String JValue :=
  match data_item with
  | .obj kvs =>
    let info := pyOr (slookupD kvs "Credit" .null) (slookupD kvs "credit" .null)
    if info.truthy then pure info
    else
      match credit_scan kvs with
      | some v => pure v
      | none => pure (.obj [("Min", .num 3), ("Max", .num 3)])
  | _ => Except.error "AttributeError"

/-- One row of `processed_list` before the flag columns are laid out. -/
structure RawRow where
  sub : String
  name : JValue
  course : JValue
  credit : String
  areas : List JValue
deriving DecidableEq

/-- One course entry turned into a row (the shared shape of lines 142-151,
154-163, 169-178 and 181-190): take `item['Course']`, resolve the credit
info and read its `Min`/`Max`, take the `Title` with the branch's default,
and look the course up in the fulfillment map (empty when absent). -/
def row_of_entry (fmap : List (JValue × List JValue)) (sub : String)
    (nameDefault : String) (item : JValue) : Except String RawRow := do
  let course ← jindex item "Course"
  let credit_info ← get_credit_info item
  let name ← jget item "Title" (.str nameDefault)
  let mn ← jindex credit_info "Min"
  let mx ← jindex credit_info "Max"
  pure { sub := sub, name := name, course := course,
         credit := format_credit mn mx,
         areas := (dget fmap course).getD [] }

/-- The inner loop of a conditional group (lines 154-163 / 181-190): one
row per course entry, in stored order, stopping at the first failure. -/
def rows_of_group (fmap : List (JValue × List JValue)) (sub : String) :
    List JValue → Except String (List RawRow)
  | [] => pure []
  | ci :: rest => do
    let r ← row_of_entry fmap sub "" ci
    let more ← rows_of_group fmap sub rest
    pure (r :: more)

/-- One item of a section list: a dict-like value answering `"Course" in
item` becomes a direct row; else one answering `"group" in item` becomes
one row per element of `item['courses']` under the conditional sub-section
label; anything else contributes nothing. -/
def process_item (fmap : List (JValue × List JValue)) (isCore : Bool)
    (item : JValue) : Except String (List RawRow) := do
  let hasCourse ← pyIn (.str "Course") item
  if hasCourse then do
    let r ← row_of_entry fmap
      (if isCore then "A. Mandatory Core Courses" else "A. General Electives List")
      (if isCore then "Mandatory" else "") item
    pure [r]
  else do
    let hasGroup ← pyIn (.str "group") item
    if hasGroup then do
      let g ← jindex item "group"
      let sub := (if isCore then "B. Conditional Core: " else "B. Conditional Elective: ") ++ pyStr g
      let coursesV ← jindex item "courses"
      let cl ← iterElems coursesV
      rows_of_group fmap sub cl
    else pure []

/-- A section's items processed in stored order, rows concatenated in
encounter order (the `processed_list.append` order of the source). -/
def process_section (fmap : List (JValue × List JValue)) (isCore : Bool) :
    List JValue → Except String (List RawRow)
  | [] => pure []
  | item :: rest => do
    let rows ← process_item fmap isCore item
    let more ← process_section fmap isCore rest
    pure (rows ++ more)

/-- Lines 201-203: one flag cell per requirement-area column — "X" when the
area string is among the row's fulfilled areas, blank otherwise. -/
def mkFlags (gened_areas : List String) (areas : List JValue) : List (String × String) :=
  gened_areas.map (fun a => (a, if areas.contains (.str a) then "X" else ""))

/-- One row of the final Curriculum Table: the `(Sub_Section, Courses in
Minor, Name)` index triple, the credit string, and the ordered flag
columns. -/
structure TableRow where
  Sub_Section : String
  course : JValue
  Name : JValue
  Credit : String
  flags : List (String × String)
deriving DecidableEq

/-- `process_curriculum_json(curriculum_name, curriculum_data, gened_areas,
fulfillment_list)`: build the fulfillment map keyed by course (last entry
wins, line 122), process `data.get("Core", [])` then
`data.get("Electives", [])`, and lay out each row's flag columns; the row
list keeps traversal order (the DataFrame index/column reshaping of lines
206-210 does not reorder rows). -/
def process_curriculum_json (curriculum_name : String) (curriculum_data : JValue)
    (gened_areas : List String) (fulfillment_list : List (JValue × List JValue)) :
    Except String (List TableRow) := do
  let fmap := fulfillment_list.foldl (fun m p => dinsert m p.1 p.2) []
  let coreV ← jget curriculum_data "Core" (.arr [])
  let core ← iterElems coreV
  let coreRows ← process_section fmap true core
  let elecV ← jget curriculum_data "Electives" (.arr [])
  let elec ← iterElems elecV
  let elecRows ← process_section fmap false elec
  pure ((coreRows ++ elecRows).map (fun r =>
    { Sub_Section := r.sub, course := r.course, Name := r.name,
      Credit := r.credit, flags := mkFlags gened_areas r.areas }))

/-! ## Analyze path: `main` (src/app.py 252-275) -/

/-- The fixed requirement-area column list of line 265. -/
def gened_areas_const : List String :=
  ["EC", "MQR", "LPS", "WCGI", "USED", "IS", "CE", "SW",
   "Lib Art", "Adv Lib Art", "ID", "Major_Core", "Major_Elec"]

/-- Outcome of one press of "Analyze Intersection": an uncaught exception,
the "No course data found" warning, the "could not be processed" notice on
an empty table, or the rendered table. -/
inductive AnalyzeOutcome where
  | fatal : String → AnalyzeOutcome
  | warnNoData : String → AnalyzeOutcome
  | infoUnprocessable : AnalyzeOutcome
  | table : List TableRow → AnalyzeOutcome
deriving DecidableEq

/-- Lines 252-275: extract the minor's courses; an empty result is reported
as "no data" and stops; otherwise resolve requirements, materialize the
table from `data_bundle['minor_data'][selected_minor]`, and branch on
emptiness of the resulting table. -/
def analyze_intersection (selected_major selected_minor : String)
    (b : DataBundle) : AnalyzeOutcome :=
  match get_minor_courses selected_minor b.minor_data with
  | .error e => .fatal e
  | .ok courses =>
    if courses.isEmpty then .warnNoData selected_minor
    else
      match map_gened_requirements courses selected_major b with
      | .error e => .fatal e
      | .ok fl =>
        match (do
            let cdata ← jindex b.minor_data selected_minor
            process_curriculum_json selected_minor cdata gened_areas_const fl :
            Except String (List TableRow)) with
        | .error e => .fatal e
        | .ok rows => if rows.isEmpty then .infoUnprocessable else .table rows

/-! ## Heap-explicit resolver (for the frame property of the catalogs)

In CPython the values of `gened_fulfillment_map` are the very list objects
stored under `Area(s)` inside `gened_data` (line 77 stores the reference).
To state that the resolver never mutates the catalog's lists, we re-render
the per-course loop of lines 87-113 with that aliasing made explicit: the
area lists live in a store of cells, the map holds cell references, line
93's `current_fulfilled = list(fulfilled_geneds)` allocates a fresh cell,
and each conditional `append` is an in-place write to a cell. -/

/-- The store of mutable list objects; a reference is an index. -/
structure AreaStore where
  cells : List (List JValue)
deriving DecidableEq

/-- Allocate a fresh list object with the given contents. -/
def AreaStore.alloc (st : AreaStore) (v : List JValue) : AreaStore × Nat :=
  (⟨st.cells ++ [v]⟩, st.cells.length)

/-- Read a list object (default empty for a dangling reference). -/
def AreaStore.read (st : AreaStore) (i : Nat) : List JValue :=
  st.cells.getD i []

/-- Overwrite a list object in place. -/
def AreaStore.write (st : AreaStore) (i : Nat) (v : List JValue) : AreaStore :=
  ⟨st.cells.set i v⟩

/-- `lst.append` of several values: an in-place write of the extended
contents. -/
def AreaStore.appendTags (st : AreaStore) (i : Nat) (ts : List JValue) : AreaStore :=
  st.write i (st.read i ++ ts)

/-- A gen-ed map value with aliasing: a reference to a catalog-owned list
object, or an immutable non-list value. -/
inductive AreaVal where
  | ref : Nat → AreaVal
  | imm : JValue → AreaVal
deriving DecidableEq

/-- The loop body of lines 87-113 over the store: read the aliased catalog
list (or normalize an immutable value), copy it into a fresh cell (line
93), then perform the conditional appends on the copy.  The returned
reference is the row's `Fulfilled Areas` object. -/
def resolve_course_refs (gmap : List (JValue × AreaVal))
    (major_core major_elective lib_art adv_lib : List JValue)
    (ID_keys : List String) (course : JValue) (st : AreaStore) :
    AreaStore × Nat :=
  let base : List JValue :=
    match dget gmap course with
    | some (.ref i) => st.read i
    | some (.imm v) => if v.truthy then [v] else []
    | none => []
  let (st, r) := st.alloc base
  let st := if major_core.contains course then st.appendTags r [JValue.str "Major_Core"] else st
  let st := if major_elective.contains course then st.appendTags r [JValue.str "Major_Elec"] else st
  let st := if lib_art.contains course then st.appendTags r [JValue.str "Lib Art"] else st
  let st := if adv_lib.contains course then st.appendTags r [JValue.str "Lib Art", JValue.str "Adv Lib Art"] else st
  let idFlag :=
    match course with
    | .str s => ID_keys.contains s || matchesIdPattern s
    | _ => false
  let st := if idFlag then st.appendTags r [JValue.str "ID"] else st
  (st, r)

/-- The loop of lines 87-113 over the whole course list, threading the
store and collecting one fresh `Fulfilled Areas` reference per course. -/
def map_gened_requirements_refs (gmap : List (JValue × AreaVal))
    (major_core major_elective lib_art adv_lib : List JValue)
    (ID_keys : List String) :
    List JValue → AreaStore → AreaStore × List (JValue × Nat)
  | [], st => (st, [])
  | course :: rest, st =>
    let (st, r) := resolve_course_refs gmap major_core major_elective lib_art adv_lib ID_keys course st
    let (st, rows) := map_gened_requirements_refs gmap major_core major_elective lib_art adv_lib ID_keys rest st
    (st, (course, r) :: rows)

/-! ## Helper lemmas -/

/-- `x ∈ (if b then l else [])` splits into the guard and the membership. -/
theorem mem_ite_nil {b : Bool} {l : List JValue} {x : JValue} :
    (x ∈ (if b then l else [])) ↔ (b = true ∧ x ∈ l) := by
  cases b <;> simp

/-- Normal form of `resolve_course` on a string course and a dict-shaped
interdisciplinary catalog: it never fails and returns the normalized gen-ed
seed followed by the conditional tag segments. -/
theorem resolve_course_ok_str (gmap : List (JValue × JValue))
    (mc me la al : List JValue) (idKvs : List (String × JValue)) (s : String) :
    resolve_course gmap mc me la al (.obj idKvs) (.str s) =
      .ok (normalizeAreas ((dget gmap (.str s)).getD (.arr [])) ++
        (if mc.contains (.str s) then [JValue.str "Major_Core"] else []) ++
        (if me.contains (.str s) then [JValue.str "Major_Elec"] else []) ++
        (if la.contains (.str s) then [JValue.str "Lib Art"] else []) ++
        (if al.contains (.str s) then [JValue.str "Lib Art", JValue.str "Adv Lib Art"] else []) ++
        (if (idKvs.any (fun p => p.1 == s) || matchesIdPattern s) then [JValue.str "ID"] else [])) := by
  unfold resolve_course pyIn
  cases hb : idKvs.any (fun p => p.1 == s) <;>
    simp [hb, Except.bind, bind, pure, Except.pure]

/-- Whatever the course and catalogs, a successful `resolve_course` returns
the normalized gen-ed seed followed by the conditional tag segments, for
some value of the interdisciplinary flag. -/
theorem resolve_course_ok_shape {gmap : List (JValue × JValue)}
    {mc me la al : List JValue} {idData course : JValue} {areas : List JValue}
    (h : resolve_course gmap mc me la al idData course = .ok areas) :
    ∃ idFlag : Bool, areas =
      normalizeAreas ((dget gmap course).getD (.arr [])) ++
        (if mc.contains course then [JValue.str "Major_Core"] else []) ++
        (if me.contains course then [JValue.str "Major_Elec"] else []) ++
        (if la.contains course then [JValue.str "Lib Art"] else []) ++
        (if al.contains course then [JValue.str "Lib Art", JValue.str "Adv Lib Art"] else []) ++
        (if idFlag then [JValue.str "ID"] else []) := by
  unfold resolve_course at h
  cases hin : pyIn course idData with
  | error e => simp [hin, Except.bind, bind] at h
  | ok b =>
    cases b with
    | true =>
      refine ⟨true, ?_⟩
      simp [hin, Except.bind, bind, pure, Except.pure] at h ⊢
      simp [h]
    | false =>
      cases course with
      | str s =>
        refine ⟨matchesIdPattern s, ?_⟩
        simp [hin, Except.bind, bind, pure, Except.pure] at h ⊢
        simp [h]
      | null => simp [hin, Except.bind, bind] at h
      | bool x => simp [hin, Except.bind, bind] at h
      | num x => simp [hin, Except.bind, bind] at h
      | arr x => simp [hin, Except.bind, bind] at h
      | obj x => simp [hin, Except.bind, bind] at h

/-! ## Claim C4 -/

/-- C4: the resolver adds "ID" to a course's resolved area set exactly when
the course identifier is a key of the interdisciplinary catalog or the
identifier ends in one-or-more digits immediately followed by "ID" (stated
for resolved sets whose gen-ed seed does not itself carry an "ID" area, so
that "adds" is well defined). -/
theorem spec_c4_id_membership (gmap : List (JValue × JValue))
    (mc me la al : List JValue) (idKvs : List (String × JValue)) (s : String)
    (areas : List JValue)
    (h : resolve_course gmap mc me la al (.obj idKvs) (.str s) = .ok areas)
    (hseed : JValue.str "ID" ∉ normalizeAreas ((dget gmap (.str s)).getD (.arr []))) :
    JValue.str "ID" ∈ areas ↔
      (idKvs.any (fun p => p.1 == s) = true ∨ matchesIdPattern s = true) := by
  rw [resolve_course_ok_str] at h
  have ha := Except.ok.inj h
  subst ha
  have h1 : JValue.str "ID" ≠ JValue.str "Major_Core" := by decide
  have h2 : JValue.str "ID" ≠ JValue.str "Major_Elec" := by decide
  have h3 : JValue.str "ID" ≠ JValue.str "Lib Art" := by decide
  have h4 : JValue.str "ID" ≠ JValue.str "Adv Lib Art" := by decide
  simp [List.mem_append, mem_ite_nil, hseed, h1, h2, h3, h4, Bool.or_eq_true]

/-- Witness for C4 at course "12ID" with every catalog empty: "ID" is
resolved although the identifier is not a key of the interdisciplinary
catalog. -/
theorem spec_c4_id_membership_witness :
    JValue.str "ID" ∈ [JValue.str "ID"] ↔
      ((List.any ([] : List (String × JValue)) (fun p => p.1 == "12ID") = true) ∨
        matchesIdPattern "12ID" = true) :=
  spec_c4_id_membership [] [] [] [] [] [] "12ID" [JValue.str "ID"] (by decide) (by decide)

/-! ## Claim C5 -/

/-- C5: every course belonging to the liberal-arts catalog's "Adv Lib Art"
set resolves both "Lib Art" and "Adv Lib Art", whatever the other catalogs
say. -/
theorem spec_c5_adv_lib_art (gmap : List (JValue × JValue))
    (mc me la al : List JValue) (idData course : JValue) (areas : List JValue)
    (hal : al.contains course = true)
    (h : resolve_course gmap mc me la al idData course = .ok areas) :
    JValue.str "Lib Art" ∈ areas ∧ JValue.str "Adv Lib Art" ∈ areas := by
  obtain ⟨idFlag, hsh⟩ := resolve_course_ok_shape h
  subst hsh
  constructor <;>
    · simp only [List.mem_append, mem_ite_nil]
      refine Or.inl (Or.inr ⟨hal, ?_⟩)
      simp

/-- Witness for C5: a course whose only catalog membership is the
"Adv Lib Art" set resolves both liberal-arts tags. -/
theorem spec_c5_adv_lib_art_witness :
    JValue.str "Lib Art" ∈ [JValue.str "Lib Art", JValue.str "Adv Lib Art"] ∧
    JValue.str "Adv Lib Art" ∈ [JValue.str "Lib Art", JValue.str "Adv Lib Art"] :=
  spec_c5_adv_lib_art [] [] [] [] [JValue.str "X9"] (.obj []) (.str "X9")
    [JValue.str "Lib Art", JValue.str "Adv Lib Art"] (by decide) (by decide)

/-! ## Claim C6 -/

/-- C6: a course absent from the merged gen-ed map, from the major's core
and elective sets, from both liberal-arts sets and from the
interdisciplinary catalog's keys, and not matching the digits-then-ID
pattern, resolves to the empty area set; and a row whose fulfilled-area
set is empty has every flag column blank. -/
theorem spec_c6_absent_course_blank (gmap : List (JValue × JValue))
    (mc me la al : List JValue) (idKvs : List (String × JValue)) (s : String)
    (cols : List String)
    (hg : dget gmap (.str s) = none)
    (hmc : mc.contains (.str s) = false) (hme : me.contains (.str s) = false)
    (hla : la.contains (.str s) = false) (hal : al.contains (.str s) = false)
    (hid : idKvs.any (fun p => p.1 == s) = false)
    (hpat : matchesIdPattern s = false) :
    resolve_course gmap mc me la al (.obj idKvs) (.str s) = .ok [] ∧
    mkFlags cols [] = cols.map (fun a => (a, "")) := by
  constructor
  · rw [resolve_course_ok_str, hg, hmc, hme, hla, hal, hid, hpat]
    simp [normalizeAreas]
  · simp [mkFlags]

/-- Witness for C6 at course "ZZZ" with every catalog empty and the fixed
column list. -/
theorem spec_c6_absent_course_blank_witness :
    resolve_course [] [] [] [] [] (.obj []) (.str "ZZZ") = .ok [] ∧
    mkFlags gened_areas_const [] = gened_areas_const.map (fun a => (a, "")) :=
  spec_c6_absent_course_blank [] [] [] [] [] [] "ZZZ" gened_areas_const
    (by decide) (by decide) (by decide) (by decide) (by decide) (by decide) (by decide)

/-! ## Concrete catalogs for the end-to-end claims -/

/-- The end-to-end minor catalog of the spec:
`{"M":{"Core":[{"Course":"X1","Title":"T1"}]}}`. -/
def e2e_minor_catalog : JValue :=
  .obj [("M", .obj [("Core", .arr [.obj [("Course", .str "X1"), ("Title", .str "T1")]])])]

/-- The end-to-end major catalog exactly as the claim shapes it: core and
electives as lists of course-identifier strings,
`{"MAJ":{"Core":["X1"],"Electives":[]}}`. -/
def e2e_major_catalog_strings : JValue :=
  .obj [("MAJ", .obj [("Core", .arr [.str "X1"]), ("Electives", .arr [])])]

/-- The same major catalog in the shape the code actually reads (lines
80-81 take `c['Course']` of every element): course entries as objects,
`{"MAJ":{"Core":[{"Course":"X1"}],"Electives":[]}}`. -/
def e2e_major_catalog_objs : JValue :=
  .obj [("MAJ", .obj [("Core", .arr [.obj [("Course", .str "X1")]]), ("Electives", .arr [])])]

/-- An empty gen-ed catalog in the shape lines 74-75 read
(`gened_data['gened'][core_type]` must exist). -/
def e2e_gened_catalog : JValue :=
  .obj [("gened", .obj [("Required Core", .arr []), ("Flexible Core", .arr [])])]

/-- An empty liberal-arts catalog in the shape lines 82-83 read. -/
def e2e_lib_catalog : JValue :=
  .obj [("Adv Lib Art", .arr []), ("Lib Art", .arr [])]

/-- An empty interdisciplinary catalog. -/
def e2e_ID_catalog : JValue := .obj []

/-- The end-to-end bundle with the claim's string-shaped major catalog. -/
def e2e_bundle_strings : DataBundle :=
  ⟨e2e_minor_catalog, e2e_gened_catalog, e2e_major_catalog_strings, e2e_lib_catalog, e2e_ID_catalog⟩

/-- The end-to-end bundle with the object-shaped major catalog. -/
def e2e_bundle_objs : DataBundle :=
  ⟨e2e_minor_catalog, e2e_gened_catalog, e2e_major_catalog_objs, e2e_lib_catalog, e2e_ID_catalog⟩

/-! ## Claim C1 -/

/-- Counterexample to C1 as stated: with the major catalog's core given as
a list of course-identifier strings, line 80's `c['Course']` subscripts a
string and the pipeline raises TypeError instead of producing any table. -/
theorem spec_c1_counterexample :
    analyze_intersection "MAJ" "M" e2e_bundle_strings = .fatal "TypeError" ∧
    ∀ rows, analyze_intersection "MAJ" "M" e2e_bundle_strings ≠ .table rows := by
  refine ⟨by decide, fun rows h => ?_⟩
  have h1 : analyze_intersection "MAJ" "M" e2e_bundle_strings = .fatal "TypeError" := by decide
  rw [h1] at h
  exact AnalyzeOutcome.noConfusion h

/-- C1 amended: with the major catalog's core given as course-entry objects
(`{"MAJ":{"Core":[{"Course":"X1"}],"Electives":[]}}`, the shape the code
reads), the pipeline produces exactly one row whose Sub-Section is
"A. Mandatory Core Courses", whose Credit string is "3", whose Major_Core
flag is set, and whose every other requirement-area column is blank. -/
theorem spec_c1_amended :
    analyze_intersection "MAJ" "M" e2e_bundle_objs =
      .table [{ Sub_Section := "A. Mandatory Core Courses", course := .str "X1",
                Name := .str "T1", Credit := "3",
                flags := [("EC", ""), ("MQR", ""), ("LPS", ""), ("WCGI", ""),
                          ("USED", ""), ("IS", ""), ("CE", ""), ("SW", ""),
                          ("Lib Art", ""), ("Adv Lib Art", ""), ("ID", ""),
                          ("Major_Core", "X"), ("Major_Elec", "")] }] := by
  decide

/-! ## Claim C2 -/

/-- A Core entry whose Credit field is the malformed (non-Min/Max) value
"three". -/
def c2_bad_credit_entry : JValue :=
  .obj [("Course", .str "C1"), ("Credit", .str "three")]

/-- Counterexample to C2 as stated: on an entry whose Credit field holds
the truthy non-\x7bMin,Max\x7d value "three", `get_credit_info` returns the
string unchecked and the materializer raises TypeError at
`credit_info['Min']` — malformed credit metadata is not resolved via the
3-3 default and is fatal. -/
theorem spec_c2_counterexample :
    get_credit_info c2_bad_credit_entry = .ok (.str "three") ∧
    process_curriculum_json "M" (.obj [("Core", .arr [c2_bad_credit_entry])])
        gened_areas_const [] = .error "TypeError" ∧
    ∀ rows, process_curriculum_json "M" (.obj [("Core", .arr [c2_bad_credit_entry])])
        gened_areas_const [] ≠ .ok rows := by
  refine ⟨by decide, by decide, fun rows h => ?_⟩
  have h1 : process_curriculum_json "M" (.obj [("Core", .arr [c2_bad_credit_entry])])
      gened_areas_const [] = .error "TypeError" := by decide
  rw [h1] at h
  exact Except.noConfusion h

/-- `slookup` finds nothing when no key of the list satisfies a property
the wanted key satisfies. -/
theorem slookup_none_of_no_credit_key (kvs : List (String × JValue)) (key : String)
    (hkey : strContains (strToLower key) "credit" = true)
    (h : ∀ p ∈ kvs, strContains (strToLower p.1) "credit" = false) :
    slookup kvs key = none := by
  induction kvs with
  | nil => rfl
  | cons p rest ih =>
    have hp := h p (by simp)
    have hne : (p.1 == key) = false := by
      cases hbe : p.1 == key with
      | false => rfl
      | true =>
        have : p.1 = key := by simpa using hbe
        rw [this] at hp
        rw [hp] at hkey
        exact Bool.noConfusion hkey
    simp only [slookup, List.find?]
    rw [hne]
    exact ih (fun q hq => h q (by simp [hq]))

/-- `credit_scan` finds nothing when no key contains "credit". -/
theorem credit_scan_none (kvs : List (String × JValue))
    (h : ∀ p ∈ kvs, strContains (strToLower p.1) "credit" = false) :
    credit_scan kvs = none := by
  induction kvs with
  | nil => rfl
  | cons p rest ih =>
    obtain ⟨k, v⟩ := p
    have hp := h (k, v) (by simp)
    simp only at hp
    simp only [credit_scan, hp, Bool.false_eq_true, if_false]
    exact ih (fun q hq => h q (by simp [hq]))

/-- C2 amended: the Materializer's credit resolution returns the explicit
Credit/credit field's value whenever that value is truthy, without
validating that it is a \x7bMin,Max\x7d pair (so a truthy malformed value
is passed through, and reading Min/Max from it then raises — see the
counterexample); when Credit and credit are absent or falsy it returns the
first field whose key contains "credit" case-insensitively and whose value
is a \x7bMin,Max\x7d dict; when no field's key contains "credit" at all it
falls back to \x7bMin:3, Max:3\x7d. -/
theorem spec_c2_amended :
    (∀ (kvs : List (String × JValue)) (v : JValue),
      pyOr (slookupD kvs "Credit" .null) (slookupD kvs "credit" .null) = v →
      v.truthy = true →
      get_credit_info (.obj kvs) = .ok v) ∧
    (∀ (kvs : List (String × JValue)) (v : JValue),
      (pyOr (slookupD kvs "Credit" .null) (slookupD kvs "credit" .null)).truthy = false →
      credit_scan kvs = some v →
      get_credit_info (.obj kvs) = .ok v) ∧
    (∀ kvs : List (String × JValue),
      (∀ p ∈ kvs, strContains (strToLower p.1) "credit" = false) →
      get_credit_info (.obj kvs) = .ok (.obj [("Min", .num 3), ("Max", .num 3)])) := by
  refine ⟨?_, ?_, ?_⟩
  · intro kvs v hv ht
    simp [get_credit_info, hv, ht]
    rfl
  · intro kvs v ht hscan
    simp [get_credit_info, ht, hscan]
    rfl
  · intro kvs h
    have h1 : slookup kvs "Credit" = none :=
      slookup_none_of_no_credit_key kvs "Credit" (by decide) h
    have h2 : slookup kvs "credit" = none :=
      slookup_none_of_no_credit_key kvs "credit" (by decide) h
    have h3 : credit_scan kvs = none := credit_scan_none kvs h
    simp [get_credit_info, slookupD, h1, h2, h3, pyOr, JValue.truthy]
    rfl

/-- Witness for C2 amended: a truthy malformed Credit value is passed
through unchecked; an entry with no credit-like key gets the 3-3
default. -/
theorem spec_c2_amended_witness :
    get_credit_info (.obj [("Credit", .str "three")]) = .ok (.str "three") ∧
    get_credit_info (.obj [("Foo", .null)]) = .ok (.obj [("Min", .num 3), ("Max", .num 3)]) :=
  ⟨spec_c2_amended.1 [("Credit", .str "three")] (.str "three") (by decide) (by decide),
   spec_c2_amended.2.2 [("Foo", .null)] (by decide)⟩

/-! ## Claim C3 -/

/-- A Core section whose conditional group precedes a direct entry. -/
def c3_group_first_tree : JValue :=
  .obj [("Core", .arr
    [.obj [("group", .str "G"), ("courses", .arr [.obj [("Course", .str "D")]])],
     .obj [("Course", .str "A")]])]

/-- Counterexample to C3 as stated: with Core = [group "G" containing D,
direct A], the conditional-group row (Sub-Section "B. Conditional Core: G")
comes out BEFORE the direct row (Sub-Section "A. Mandatory Core Courses"):
within a section the rows follow source order, not directs-before-groups. -/
theorem spec_c3_counterexample :
    (process_curriculum_json "M" c3_group_first_tree gened_areas_const []).map
        (fun rows => rows.map (fun r => (r.Sub_Section, r.course))) =
      .ok [("B. Conditional Core: G", .str "D"),
           ("A. Mandatory Core Courses", .str "A")] := by
  decide

/-- A direct course entry with no title or credit metadata. -/
def mkDirect (x : String) : JValue := .obj [("Course", .str x)]

/-- A bare direct entry becomes one row with the branch's sub-section and
title default, the 3-3 default credit, and the fulfillment lookup. -/
theorem row_of_entry_direct (fmap : List (JValue × List JValue))
    (sub nd : String) (x : String) :
    row_of_entry fmap sub nd (mkDirect x) =
      .ok ⟨sub, .str nd, .str x, "3", (dget fmap (.str x)).getD []⟩ := rfl

/-- A list of bare direct entries is processed into one row per entry, in
source order. -/
theorem process_section_directs (fmap : List (JValue × List JValue))
    (isCore : Bool) :
    ∀ xs : List String,
      process_section fmap isCore (xs.map mkDirect) =
        .ok (xs.map (fun x =>
          (⟨(if isCore then "A. Mandatory Core Courses" else "A. General Electives List"),
            .str (if isCore then "Mandatory" else ""), .str x, "3",
            (dget fmap (.str x)).getD []⟩ : RawRow)))
  | [] => rfl
  | x :: rest => by
    have ih := process_section_directs fmap isCore rest
    simp only [List.map_cons, process_section, process_item]
    have hin : pyIn (.str "Course") (mkDirect x) = pure true := rfl
    rw [hin]
    simp only [Except.bind, bind, pure]
    rw [row_of_entry_direct]
    simp only [Except.bind, bind]
    rw [ih]
    rfl

/-- Binding a successful Except computation just applies the
continuation. -/
theorem except_bind_ok {e a b : Type} (x : a) (f : a → Except e b) :
    ((Except.ok x : Except e a) >>= f) = f x := rfl

/-- On a two-section tree, `process_curriculum_json` is the Core rows bound
before the Electives rows (definitional unfolding of the concrete-key
accesses). -/
theorem process_curriculum_json_sections (name : String)
    (coreList elecList : List JValue) (areas : List String)
    (fl : List (JValue × List JValue)) :
    process_curriculum_json name
        (.obj [("Core", .arr coreList), ("Electives", .arr elecList)]) areas fl =
      (process_section (fl.foldl (fun m p => dinsert m p.1 p.2) []) true coreList >>= fun cr =>
        process_section (fl.foldl (fun m p => dinsert m p.1 p.2) []) false elecList >>= fun er =>
        pure ((cr ++ er).map (fun r =>
          { Sub_Section := r.sub, course := r.course, Name := r.name,
            Credit := r.credit, flags := mkFlags areas r.areas }))) := rfl

/-- C3 amended: rows appear in traversal order — every Core-section row
before every Electives-section row, and within each section entries in
source order with direct and conditional-group entries interleaved exactly
as stored.  First conjunct: for any all-direct Core [xs] and Electives
[ys], and any resolver output, the row courses are xs ++ ys.  Second
conjunct: with Core = [A, group G = [D], B] the rows are A, D, B (source
order, group in place). -/
theorem spec_c3_amended :
    (∀ (name : String) (xs ys : List String) (fl : List (JValue × List JValue)),
      (process_curriculum_json name
          (.obj [("Core", .arr (xs.map mkDirect)), ("Electives", .arr (ys.map mkDirect))])
          gened_areas_const fl).map (fun rows => rows.map TableRow.course) =
        .ok ((xs ++ ys).map JValue.str)) ∧
    (process_curriculum_json "M"
        (.obj [("Core", .arr
          [mkDirect "A",
           .obj [("group", .str "G"), ("courses", .arr [.obj [("Course", .str "D")]])],
           mkDirect "B"])])
        gened_areas_const []).map (fun rows => rows.map TableRow.course) =
      .ok [.str "A", .str "D", .str "B"] := by
  constructor
  · intro name xs ys fl
    rw [process_curriculum_json_sections, process_section_directs, except_bind_ok,
      process_section_directs, except_bind_ok]
    simp only [pure, Except.pure, Except.map, List.map_append, List.map_map]
    rfl
  · decide

/-! ## Claim C7 -/

/-- A gen-ed catalog document with the given Required Core and Flexible
Core entry lists. -/
def mkGenedData (rc fc : List JValue) : JValue :=
  .obj [("gened", .obj [("Required Core", .arr rc), ("Flexible Core", .arr fc)])]

/-- A gen-ed catalog entry for course `c` with `Area(s)` value `a`. -/
def mkGE (c : String) (a : JValue) : JValue :=
  .obj [("Course", .str c), ("Area(s)", a)]

/-- The data bundle for the C7 counterexample: course "C" carries the falsy
non-list Area(s) value "". -/
def c7_bundle : DataBundle :=
  ⟨e2e_minor_catalog, mkGenedData [mkGE "C" (.str "")] [],
   e2e_major_catalog_objs, e2e_lib_catalog, e2e_ID_catalog⟩

/-- Counterexample to C7 as stated: course "C" is present in the merged
gen-ed map with the single non-list stored value "", yet its resolved area
set is empty — the falsy value is NOT normalized into the one-element
sequence [""]. -/
theorem spec_c7_counterexample :
    build_gened_map c7_bundle.gened_data = .ok [(.str "C", .str "")] ∧
    map_gened_requirements [.str "C"] "MAJ" c7_bundle = .ok [(.str "C", [])] ∧
    map_gened_requirements [.str "C"] "MAJ" c7_bundle ≠ .ok [(.str "C", [.str ""])] := by
  refine ⟨by decide, by decide, fun h => ?_⟩
  have h1 : map_gened_requirements [.str "C"] "MAJ" c7_bundle = .ok [(.str "C", [])] := by
    decide
  rw [h1] at h
  have h2 := Except.ok.inj h
  simp at h2

/-- C7 amended: the merged gen-ed lookup is built from the Required Core
and Flexible Core entries (one map from Course to Area(s), Flexible
overwriting Required on a shared course), and a course present in the map
seeds its resolved set with its stored value passed through the
normalization `normalizeAreas`, which turns a single non-list TRUTHY value
into a one-element sequence but turns a falsy non-list value (such as "",
0, false or null) into the empty sequence. -/
theorem spec_c7_amended :
    (∀ (gmap : List (JValue × JValue)) (mc me la al : List JValue)
       (idData course v : JValue) (areas : List JValue),
      dget gmap course = some v →
      resolve_course gmap mc me la al idData course = .ok areas →
      ∃ tags, areas = normalizeAreas v ++ tags) ∧
    (∀ v : JValue, (∀ l, v ≠ .arr l) → v.truthy = true → normalizeAreas v = [v]) ∧
    (∀ v : JValue, (∀ l, v ≠ .arr l) → v.truthy = false → normalizeAreas v = []) ∧
    (∀ (c : String) (a b : JValue),
      build_gened_map (mkGenedData [mkGE c a] []) = .ok [(.str c, a)] ∧
      build_gened_map (mkGenedData [] [mkGE c a]) = .ok [(.str c, a)] ∧
      build_gened_map (mkGenedData [mkGE c a] [mkGE c b]) = .ok [(.str c, b)]) := by
  refine ⟨?_, ?_, ?_, ?_⟩
  · intro gmap mc me la al idData course v areas hv h
    obtain ⟨idFlag, hsh⟩ := resolve_course_ok_shape h
    rw [hv] at hsh
    exact ⟨_, by simpa [List.append_assoc] using hsh⟩
  · intro v hnl ht
    cases v with
    | arr l => exact absurd rfl (hnl l)
    | null => exact absurd ht (by decide)
    | bool x => simp [normalizeAreas, ht]
    | num x => simp [normalizeAreas, ht]
    | str x => simp [normalizeAreas, ht]
    | obj x => simp [normalizeAreas, ht]
  · intro v hnl ht
    cases v with
    | arr l => exact absurd rfl (hnl l)
    | null => rfl
    | bool x => simp [normalizeAreas, ht]
    | num x => simp [normalizeAreas, ht]
    | str x => simp [normalizeAreas, ht]
    | obj x => simp [normalizeAreas, ht]
  · intro c a b
    refine ⟨rfl, rfl, ?_⟩
    simp only [build_gened_map, mkGenedData, mkGE]
    simp [jindex, slookup, iterElems, jget, slookupD, dinsert, Except.bind, bind, pure,
      Except.pure, List.foldlM]

/-- Witness for C7 amended: a truthy stored value "x" seeds ["x"]; the
falsy stored value "" seeds the empty sequence. -/
theorem spec_c7_amended_witness :
    (∃ tags, [JValue.str "x"] = normalizeAreas (.str "x") ++ tags) ∧
    normalizeAreas (.str "x") = [JValue.str "x"] ∧
    normalizeAreas (.str "") = [] :=
  ⟨spec_c7_amended.1 [(.str "C", .str "x")] [] [] [] [] (.obj []) (.str "C") (.str "x")
      [.str "x"] (by decide) (by decide),
   spec_c7_amended.2.1 (.str "x") (fun l h => JValue.noConfusion h) (by decide),
   spec_c7_amended.2.2.1 (.str "") (fun l h => JValue.noConfusion h) (by decide)⟩

/-! ## Claim C8 -/

/-- C8: a minor name that is not a key of the minor catalog makes the
Course Extractor return the empty sequence without failing, and the
analyze path then reports the "no course data" warning instead of
resolving or materializing — whatever the other four catalogs hold. -/
theorem spec_c8_missing_minor (kvs : List (String × JValue))
    (minor major : String) (g mj l i : JValue)
    (habs : kvs.any (fun p => p.1 == minor) = false) :
    get_minor_courses minor (.obj kvs) = .ok [] ∧
    analyze_intersection major minor ⟨.obj kvs, g, mj, l, i⟩ = .warnNoData minor := by
  have hext : get_minor_courses minor (.obj kvs) = .ok [] := by
    simp [get_minor_courses, pyIn, habs, Except.bind, bind, pure, Except.pure]
  refine ⟨hext, ?_⟩
  simp [analyze_intersection, hext]

/-- Witness for C8: minor "M" is absent from a one-minor catalog keyed
"X". -/
theorem spec_c8_missing_minor_witness :
    get_minor_courses "M" (.obj [("X", .null)]) = .ok [] ∧
    analyze_intersection "MAJ" "M" ⟨.obj [("X", .null)], .null, .null, .null, .null⟩ =
      .warnNoData "M" :=
  spec_c8_missing_minor [("X", .null)] "M" "MAJ" .null .null .null .null (by decide)

/-! ## Claim C9 -/

/-- Element read at the first position past a list prefix. -/
theorem listGetDLast (c0 : List (List JValue)) (x : List JValue) :
    (c0 ++ [x]).getD c0.length [] = x := by
  induction c0 with
  | nil => rfl
  | cons h t ih => simpa using ih

/-- In-place update at the first position past a list prefix. -/
theorem listSetLast (c0 : List (List JValue)) (x v : List JValue) :
    (c0 ++ [x]).set c0.length v = c0 ++ [v] := by
  induction c0 with
  | nil => rfl
  | cons h t ih => simpa using ih

/-- Appending tags to the freshly allocated cell only rewrites that
cell. -/
theorem appendTags_last (c0 : List (List JValue)) (x ts : List JValue) :
    AreaStore.appendTags ⟨c0 ++ [x]⟩ c0.length ts = ⟨c0 ++ [x ++ ts]⟩ := by
  simp [AreaStore.appendTags, AreaStore.read, AreaStore.write, listGetDLast, listSetLast]

/-- The gen-ed seed read by the heap-explicit resolver. -/
def refs_seed (gmap : List (JValue × AreaVal)) (course : JValue) (st : AreaStore) :
    List JValue :=
  match dget gmap course with
  | some (.ref i) => st.read i
  | some (.imm v) => if v.truthy then [v] else []
  | none => []

/-- Closed form of one heap-explicit resolution step: the store gains
exactly one fresh cell (holding the copied seed plus the conditional tags)
and the returned reference points at it. -/
theorem resolve_course_refs_eq (gmap : List (JValue × AreaVal))
    (mc me la al : List JValue) (idKeys : List String) (course : JValue)
    (st : AreaStore) :
    resolve_course_refs gmap mc me la al idKeys course st =
      (⟨st.cells ++ [refs_seed gmap course st ++
          (if mc.contains course then [JValue.str "Major_Core"] else []) ++
          (if me.contains course then [JValue.str "Major_Elec"] else []) ++
          (if la.contains course then [JValue.str "Lib Art"] else []) ++
          (if al.contains course then [JValue.str "Lib Art", JValue.str "Adv Lib Art"] else []) ++
          (if (match course with
               | .str s => idKeys.contains s || matchesIdPattern s
               | _ => false)
             then [JValue.str "ID"] else [])]⟩,
       st.cells.length) := by
  unfold resolve_course_refs
  cases h1 : mc.contains course <;>
  cases h2 : me.contains course <;>
  cases h3 : la.contains course <;>
  cases h4 : al.contains course <;>
  cases h5 : (match course with
              | .str s => idKeys.contains s || matchesIdPattern s
              | _ => false) <;>
    simp [h1, h2, h3, h4, h5, AreaStore.alloc, appendTags_last, refs_seed,
      List.append_assoc]

/-- Running the heap-explicit resolver over a whole course list leaves
every pre-existing store cell — in particular every catalog-owned area
list — unchanged. -/
theorem map_refs_frame (gmap : List (JValue × AreaVal))
    (mc me la al : List JValue) (idKeys : List String) :
    ∀ (courses : List JValue) (st : AreaStore),
      ((map_gened_requirements_refs gmap mc me la al idKeys courses st).1.cells.take
        st.cells.length) = st.cells
  | [], st => by simp [map_gened_requirements_refs]
  | c :: rest, st => by
    have hres := resolve_course_refs_eq gmap mc me la al idKeys c st
    simp only [map_gened_requirements_refs, hres]
    have ih := map_refs_frame gmap mc me la al idKeys rest
      ⟨st.cells ++ [refs_seed gmap c st ++
          (if mc.contains c then [JValue.str "Major_Core"] else []) ++
          (if me.contains c then [JValue.str "Major_Elec"] else []) ++
          (if la.contains c then [JValue.str "Lib Art"] else []) ++
          (if al.contains c then [JValue.str "Lib Art", JValue.str "Adv Lib Art"] else []) ++
          (if (match c with
               | .str s => idKeys.contains s || matchesIdPattern s
               | _ => false)
             then [JValue.str "ID"] else [])]⟩
    set y := refs_seed gmap c st ++
          (if mc.contains c then [JValue.str "Major_Core"] else []) ++
          (if me.contains c then [JValue.str "Major_Elec"] else []) ++
          (if la.contains c then [JValue.str "Lib Art"] else []) ++
          (if al.contains c then [JValue.str "Lib Art", JValue.str "Adv Lib Art"] else []) ++
          (if (match c with
               | .str s => idKeys.contains s || matchesIdPattern s
               | _ => false)
             then [JValue.str "ID"] else []) with hy
    have hlen : st.cells.length ≤ (st.cells ++ [y]).length := by
      simp
    calc ((map_gened_requirements_refs gmap mc me la al idKeys rest
              ⟨st.cells ++ [y]⟩).1.cells.take st.cells.length)
        = (((map_gened_requirements_refs gmap mc me la al idKeys rest
              ⟨st.cells ++ [y]⟩).1.cells.take (st.cells ++ [y]).length).take
                st.cells.length) := by
          rw [List.take_take]
          congr 1
          omega
      _ = ((st.cells ++ [y]).take st.cells.length) := by rw [ih]
      _ = st.cells := List.take_left st.cells [y]

/-- C9: the analysis pipeline never mutates the catalog documents.  In the
heap-explicit rendering of `map_gened_requirements` (where the gen-ed
catalog's `Area(s)` lists are shared, mutable cells), resolving every
course leaves all pre-existing cells exactly as they were: appending the
derived tags only ever writes to the per-course copy allocated by line
93's `list(...)`, so two successive analyses read identical catalog
contents. -/
theorem spec_c9_catalog_frame (gmap : List (JValue × AreaVal))
    (mc me la al : List JValue) (idKeys : List String)
    (courses : List JValue) (st : AreaStore) :
    ((map_gened_requirements_refs gmap mc me la al idKeys courses st).1.cells.take
      st.cells.length) = st.cells :=
  map_refs_frame gmap mc me la al idKeys courses st

/-! ## Claim C10 -/

/-- A successful bind decomposes into a successful first computation and a
successful continuation. -/
theorem bind_eq_ok {e a b : Type} {x : Except e a} {f : a → Except e b} {r : b}
    (h : (x >>= f) = .ok r) : ∃ v, x = .ok v ∧ f v = .ok r := by
  cases x with
  | error err =>
    exact absurd h (by simp [Except.bind, bind])
  | ok v => exact ⟨v, rfl, h⟩

/-- Every successfully built row's fulfilled-area set is exactly the
fulfillment-map lookup of its own course identifier. -/
theorem row_of_entry_areas {fmap : List (JValue × List JValue)} {sub nd : String}
    {item : JValue} {r : RawRow} (h : row_of_entry fmap sub nd item = .ok r) :
    r.areas = (dget fmap r.course).getD [] := by
  unfold row_of_entry at h
  obtain ⟨course, h1, h⟩ := bind_eq_ok h
  obtain ⟨ci, h2, h⟩ := bind_eq_ok h
  obtain ⟨nm, h3, h⟩ := bind_eq_ok h
  obtain ⟨mn, h4, h⟩ := bind_eq_ok h
  obtain ⟨mx, h5, h⟩ := bind_eq_ok h
  have hr := Except.ok.inj h
  rw [← hr]

/-- Area-lookup invariant through a conditional group's rows. -/
theorem rows_of_group_areas {fmap : List (JValue × List JValue)} {sub : String} :
    ∀ {cl : List JValue} {rs : List RawRow},
      rows_of_group fmap sub cl = .ok rs →
      ∀ r ∈ rs, r.areas = (dget fmap r.course).getD []
  | [], rs, h => by
    have hr := Except.ok.inj h
    rw [← hr]
    intro r hm
    exact absurd hm (List.not_mem_nil r)
  | ci :: rest, rs, h => by
    unfold rows_of_group at h
    obtain ⟨r0, h1, h⟩ := bind_eq_ok h
    obtain ⟨more, h2, h⟩ := bind_eq_ok h
    have hr := Except.ok.inj h
    intro r hm
    rw [← hr] at hm
    cases hm with
    | head => exact row_of_entry_areas h1
    | tail _ hm2 => exact rows_of_group_areas h2 r hm2

/-- Area-lookup invariant through one section item. -/
theorem process_item_areas {fmap : List (JValue × List JValue)} {isCore : Bool}
    {item : JValue} {rs : List RawRow}
    (h : process_item fmap isCore item = .ok rs) :
    ∀ r ∈ rs, r.areas = (dget fmap r.course).getD [] := by
  unfold process_item at h
  obtain ⟨hasCourse, hin, h⟩ := bind_eq_ok h
  cases hasCourse with
  | true =>
    obtain ⟨r0, h1, h⟩ := bind_eq_ok h
    have hr := Except.ok.inj h
    intro r hm
    rw [← hr] at hm
    cases hm with
    | head => exact row_of_entry_areas h1
    | tail _ hm2 => exact absurd hm2 (List.not_mem_nil r)
  | false =>
    obtain ⟨hasGroup, hg, h⟩ := bind_eq_ok h
    cases hasGroup with
    | false =>
      have hr := Except.ok.inj h
      intro r hm
      rw [← hr] at hm
      exact absurd hm (List.not_mem_nil r)
    | true =>
      obtain ⟨g, h1, h⟩ := bind_eq_ok h
      obtain ⟨cv, h2, h⟩ := bind_eq_ok h
      obtain ⟨cl, h3, h⟩ := bind_eq_ok h
      exact rows_of_group_areas h

/-- Area-lookup invariant through a whole section. -/
theorem process_section_areas {fmap : List (JValue × List JValue)} {isCore : Bool} :
    ∀ {items : List JValue} {rs : List RawRow},
      process_section fmap isCore items = .ok rs →
      ∀ r ∈ rs, r.areas = (dget fmap r.course).getD []
  | [], rs, h => by
    have hr := Except.ok.inj h
    rw [← hr]
    intro r hm
    exact absurd hm (List.not_mem_nil r)
  | item :: rest, rs, h => by
    unfold process_section at h
    obtain ⟨rows1, h1, h⟩ := bind_eq_ok h
    obtain ⟨rows2, h2, h⟩ := bind_eq_ok h
    have hr := Except.ok.inj h
    intro r hm
    rw [← hr] at hm
    rcases List.mem_append.mp hm with hm1 | hm2
    · exact process_item_areas h1 r hm1
    · exact process_section_areas h2 r hm2

/-- Every row of the Curriculum Table carries the flag columns computed
from the fulfillment-map lookup of its own course identifier alone. -/
theorem process_curriculum_json_flags {name : String} {cdata : JValue}
    {gened_areas : List String} {fl : List (JValue × List JValue)}
    {rows : List TableRow}
    (h : process_curriculum_json name cdata gened_areas fl = .ok rows) :
    ∀ r ∈ rows, r.flags =
      mkFlags gened_areas
        ((dget (fl.foldl (fun m p => dinsert m p.1 p.2) []) r.course).getD []) := by
  unfold process_curriculum_json at h
  obtain ⟨coreV, hc, h⟩ := bind_eq_ok h
  obtain ⟨core, hic, h⟩ := bind_eq_ok h
  obtain ⟨coreRows, hcr, h⟩ := bind_eq_ok h
  obtain ⟨elecV, he, h⟩ := bind_eq_ok h
  obtain ⟨elec, hie, h⟩ := bind_eq_ok h
  obtain ⟨elecRows, her, h⟩ := bind_eq_ok h
  have hr := Except.ok.inj h
  intro r hm
  rw [← hr] at hm
  obtain ⟨s, hs, hmk⟩ := List.mem_map.mp hm
  have hsa : s.areas = (dget (fl.foldl (fun m p => dinsert m p.1 p.2) []) s.course).getD [] := by
    rcases List.mem_append.mp hs with hs1 | hs2
    · exact process_section_areas hcr s hs1
    · exact process_section_areas her s hs2
  rw [← hmk]
  simp only [hsa]

/-- C10: two rows of the Curriculum Table that carry the same course
identifier have identical requirement-area flag columns, whatever their
sections, groups or titles — the flags are looked up in a map keyed by the
course identifier alone. -/
theorem spec_c10_flags_keyed_by_course (name : String) (cdata : JValue)
    (gened_areas : List String) (fl : List (JValue × List JValue))
    (rows : List TableRow)
    (h : process_curriculum_json name cdata gened_areas fl = .ok rows) :
    ∀ r1 ∈ rows, ∀ r2 ∈ rows, r1.course = r2.course → r1.flags = r2.flags := by
  intro r1 h1 r2 h2 hc
  rw [process_curriculum_json_flags h r1 h1, process_curriculum_json_flags h r2 h2, hc]

/-- Witness for C10: the same course in the Core and Electives sections
gets identical flag columns. -/
theorem spec_c10_flags_keyed_by_course_witness :
    ({ Sub_Section := "A. Mandatory Core Courses", course := .str "A",
       Name := .str "Mandatory", Credit := "3",
       flags := [("EC", "X")] } : TableRow).flags =
    ({ Sub_Section := "A. General Electives List", course := .str "A",
       Name := .str "", Credit := "3",
       flags := [("EC", "X")] } : TableRow).flags :=
  spec_c10_flags_keyed_by_course "M"
    (.obj [("Core", .arr [mkDirect "A"]), ("Electives", .arr [mkDirect "A"])])
    ["EC"] [(.str "A", [.str "EC"])]
    [{ Sub_Section := "A. Mandatory Core Courses", course := .str "A",
       Name := .str "Mandatory", Credit := "3", flags := [("EC", "X")] },
     { Sub_Section := "A. General Electives List", course := .str "A",
       Name := .str "", Credit := "3", flags := [("EC", "X")] }]
    (by decide)
    _ (by simp) _ (by simp) rfl
